import Mathlib

/-!
Verification development for the video-editor repository.

Strings handled by the URL layer are modelled at the byte level: a JavaScript
string is represented as a `List Char` whose characters stand for the bytes of
its UTF-8 encoding (so every character is assumed to have a code below 256
where that matters, and theorems carry that bound as a hypothesis).  On such
byte strings the JavaScript operations used by the source (startsWith,
includes, percent-encoding of the UTF-8 bytes, query-string decoding) coincide
with the byte-level definitions given here, because every search pattern the
source uses is pure ASCII.
-/

namespace VideoEditor

/-- Byte string from a Lean string literal (ASCII literals only are used). -/
def S (s : String) : List Char :=
  s.toList

/-- Characters the JavaScript builtin encodeURIComponent leaves unescaped:
A-Z a-z 0-9 - _ . ! ~ * quote ( ). -/
def isUnresCode (n : Nat) : Bool :=
  (65 ≤ n && n ≤ 90) || (97 ≤ n && n ≤ 122) || (48 ≤ n && n ≤ 57) ||
  n == 45 || n == 95 || n == 46 || n == 33 || n == 126 || n == 42 ||
  n == 39 || n == 40 || n == 41

/-- Upper-case hex digit for a nibble, as produced by encodeURIComponent. -/
def hexUpper (n : Nat) : Char :=
  if n < 10 then Char.ofNat (48 + n) else Char.ofNat (55 + n)

/-- Is the character an ASCII hex digit (either case)? -/
def isHexDigit (c : Char) : Bool :=
  (48 ≤ c.toNat && c.toNat ≤ 57) || (65 ≤ c.toNat && c.toNat ≤ 70) ||
  (97 ≤ c.toNat && c.toNat ≤ 102)

/-- Numeric value of an ASCII hex digit. -/
def hexVal (c : Char) : Nat :=
  if c.toNat ≤ 57 then c.toNat - 48
  else if c.toNat ≤ 70 then c.toNat - 55
  else c.toNat - 87

/-- Byte-level model of the JavaScript builtin encodeURIComponent: unreserved
bytes pass through, every other byte becomes a %HH escape (upper-case hex).
On UTF-8 byte strings this agrees with the builtin, which percent-encodes
exactly the UTF-8 bytes of every character outside the unreserved set. -/
def encodeURIComponent : List Char → List Char
  | [] => []
  | c :: t =>
    (if isUnresCode c.toNat then [c]
     else ['%', hexUpper (c.toNat / 16), hexUpper (c.toNat % 16)]) ++
    encodeURIComponent t

/-- Byte-level model of the JavaScript builtin decodeURIComponent: decodes
every %HH escape and fails (the builtin throws URIError) when a % is not
followed by two hex digits.  A + is left unchanged, as the builtin does. -/
def percentDecodeStrict : List Char → Option (List Char)
  | [] => some []
  | [a] => if a = '%' then none else some [a]
  | [a, b] => if a = '%' then none else (percentDecodeStrict [b]).map (fun r => a :: r)
  | a :: h1 :: h2 :: t2 =>
    if a = '%' then
      if isHexDigit h1 && isHexDigit h2 then
        (percentDecodeStrict t2).map (fun r => Char.ofNat (16 * hexVal h1 + hexVal h2) :: r)
      else none
    else (percentDecodeStrict (h1 :: h2 :: t2)).map (fun r => a :: r)

/-- Byte-level model of WHATWG application/x-www-form-urlencoded decoding,
used by URLSearchParams: + becomes a space, well-formed %HH escapes are
decoded, and malformed escapes are kept literally (no error). -/
def formUrlDecode : List Char → List Char
  | [] => []
  | [a] => if a = '+' then [' '] else [a]
  | [a, b] => (if a = '+' then ' ' else a) :: formUrlDecode [b]
  | a :: h1 :: h2 :: t2 =>
    if a = '%' then
      if isHexDigit h1 && isHexDigit h2 then
        Char.ofNat (16 * hexVal h1 + hexVal h2) :: formUrlDecode t2
      else '%' :: formUrlDecode (h1 :: h2 :: t2)
    else (if a = '+' then ' ' else a) :: formUrlDecode (h1 :: h2 :: t2)

/-- Rest of the list after the first occurrence of a character, if any. -/
def afterChar (c : Char) : List Char → Option (List Char)
  | [] => none
  | a :: t => if a = c then some t else afterChar c t

/-- Split a list on a separator character (pieces may be empty). -/
def splitOnChar (c : Char) : List Char → List (List Char)
  | [] => [[]]
  | a :: t =>
    match splitOnChar c t with
    | [] => [[a]]
    | h :: r => if a = c then [] :: h :: r else (a :: h) :: r

/-- Does the haystack contain the needle as a contiguous segment?  Models the
JavaScript String.prototype.includes on byte strings. -/
def hasSub (needle : List Char) : List Char → Bool
  | [] => needle.isEmpty
  | a :: t => needle.isPrefixOf (a :: t) || hasSub needle t

/-- Model of new URL(u).searchParams.get(key): take the part of the URL after
the first question mark (ignoring everything from the first hash on), split it
on ampersands, and return the form-url-decoded value of the first pair whose
decoded name equals the key.  This models the WHATWG query parsing for the
http URLs the source constructs; URL normalisation of other components is
irrelevant because only the query is read. -/
def searchParamGet (url : List Char) (key : List Char) : Option (List Char) :=
  match afterChar '?' (url.takeWhile (fun a => a ≠ '#')) with
  | none => none
  | some q =>
    ((splitOnChar '&' q).filterMap (fun p =>
      if p.isEmpty then none
      else
        let name := p.takeWhile (fun a => a ≠ '=')
        let value := (p.dropWhile (fun a => a ≠ '=')).drop 1
        if formUrlDecode name = key then some (formUrlDecode value) else none)).head?

/-- Models whether the JavaScript URL constructor accepts the string.  The
source only ever constructs URLs of the form http://localhost:3000/... or
passes through strings it already treats as absolute; for the http(s) strings
in scope the constructor succeeds exactly when an http(s) scheme is present. -/
def urlParseOk (s : List Char) : Bool :=
  (S ("http://")).isPrefixOf s || (S ("https://")).isPrefixOf s

/-- src/components/editor/version-7.0.0/utils/url-converter.ts, convertUrlForLambda:
turn a video-proxy URL back into the origin URL; on any parse failure or a
missing/empty url parameter return the input unchanged. -/
def convertUrlForLambda (url : List Char) : List Char :=
  if hasSub (S ("/api/video-proxy?url=")) url then
    let fullUrl := if (S ("/")).isPrefixOf url then S ("http://localhost:3000") ++ url else url
    if urlParseOk fullUrl then
      match searchParamGet fullUrl (S ("url")) with
      | some enc =>
        if enc.isEmpty then url
        else
          match percentDecodeStrict enc with
          | some dec => dec
          | none => url
      | none => url
    else url
  else url

/-- src/components/editor/version-7.0.0/utils/url-converter.ts, convertUrlForLocal:
wrap an absolute http(s) URL that is not already proxied into the local
video-proxy form; anything else is returned unchanged. -/
def convertUrlForLocal (url : List Char) : List Char :=
  if (S ("http")).isPrefixOf url && !hasSub (S ("/api/video-proxy")) url then
    S ("/api/video-proxy?url=") ++ encodeURIComponent url
  else url

/-- The five property names url-converter.ts treats as URL-bearing, as the
fields of the nested styles object.  The β component collects every other
style property, which the function copies untouched. -/
structure OverlayStyles (β : Type) where
  src : Option (List Char)
  content : Option (List Char)
  file : Option (List Char)
  audio_url : Option (List Char)
  video_url : Option (List Char)
  rest : β
deriving DecidableEq

/-- An overlay as seen by processOverlaysForLambda: the five possibly-present
string URL properties, the optional nested styles object, and an opaque α
component standing for every other field (id, type, geometry, timing, ...).
A field holds none when the property is absent or not a string. -/
structure Overlay (α β : Type) where
  src : Option (List Char)
  content : Option (List Char)
  file : Option (List Char)
  audio_url : Option (List Char)
  video_url : Option (List Char)
  styles : Option (OverlayStyles β)
  rest : α
deriving DecidableEq

/-- One URL property update: the source guards with JavaScript truthiness
(`processedOverlay[prop] && typeof ... === 'string'`), so an empty string is
left alone (conversion would not change it anyway). -/
def convField (v : Option (List Char)) : Option (List Char) :=
  match v with
  | none => none
  | some s => if s.isEmpty then some s else some (convertUrlForLambda s)

/-- src/.../utils/url-converter.ts, processOverlaysForLambda applied to one
overlay: shallow copy with each URL property converted, including the ones
nested in styles. -/
def processOverlayForLambda {α β : Type} (o : Overlay α β) : Overlay α β :=
  { src := convField o.src
    content := convField o.content
    file := convField o.file
    audio_url := convField o.audio_url
    video_url := convField o.video_url
    styles :=
      match o.styles with
      | none => none
      | some st =>
        some { src := convField st.src
               content := convField st.content
               file := convField st.file
               audio_url := convField st.audio_url
               video_url := convField st.video_url
               rest := st.rest }
    rest := o.rest }

/-- src/.../utils/url-converter.ts, processOverlaysForLambda. -/
def processOverlaysForLambda {α β : Type} (overlays : List (Overlay α β)) : List (Overlay α β) :=
  overlays.map processOverlayForLambda

/-! ### Media proxy route (src/unnamed/part_004) -/

/-- The explicit allow-list of the video-proxy route. -/
def allowedDomains : List (List Char) :=
  [S ("images.nymia.ai"), S ("sample-videos.com"),
   S ("commondatastorage.googleapis.com"), S ("www.learningcontainer.com")]

/-- The WHATWG URL constructor first removes every ASCII tab and newline
from its input and trims leading and trailing C0 controls and spaces. -/
def stripUrlInput (s : List Char) : List Char :=
  let t := ((s.dropWhile (fun c => c.toNat ≤ 32)).reverse.dropWhile
    (fun c => c.toNat ≤ 32)).reverse
  t.filter (fun c => c.toNat ≠ 9 && c.toNat ≠ 10 && c.toNat ≠ 13)

/-- ASCII letter. -/
def isAsciiAlpha (c : Char) : Bool :=
  (65 ≤ c.toNat && c.toNat ≤ 90) || (97 ≤ c.toNat && c.toNat ≤ 122)

/-- ASCII digit. -/
def isAsciiDigit (c : Char) : Bool :=
  48 ≤ c.toNat && c.toNat ≤ 57

/-- Characters allowed after the first one in a URL scheme. -/
def isSchemeTailChar (c : Char) : Bool :=
  isAsciiAlpha c || isAsciiDigit c || c = '+' || c = '-' || c = '.'

/-- ASCII lower-casing of one character, as hostname serialization applies. -/
def asciiLower (c : Char) : Char :=
  if 65 ≤ c.toNat && c.toNat ≤ 90 then Char.ofNat (c.toNat + 32) else c

/-- Scheme of a URL string: an ASCII letter followed by letters, digits, +,
- or ., terminated by a colon.  Returns the lower-cased scheme and the rest;
none models the constructor throwing for a string with no scheme (the route
calls new URL without a base). -/
def parseScheme (s : List Char) : Option (List Char × List Char) :=
  match s with
  | [] => none
  | c :: _ =>
    if isAsciiAlpha c then
      let scheme := s.takeWhile isSchemeTailChar
      match s.drop scheme.length with
      | ':' :: r => some (scheme.map asciiLower, r)
      | _ => none
    else none

/-- The WHATWG special schemes whose authority parsing the model covers
(file is special too but modelled as out of scope, see urlHostname). -/
def specialSchemes : List (List Char) :=
  [S ("http"), S ("https"), S ("ws"), S ("wss"), S ("ftp")]

/-- WHATWG forbidden host code points (tab, LF and CR are already removed
from the input). -/
def forbiddenHostChar (c : Char) : Bool :=
  c.toNat = 0 || c.toNat = 9 || c.toNat = 10 || c.toNat = 13 || c = ' ' ||
  c = '#' || c = '/' || c = ':' || c = '<' || c = '>' || c = '?' || c = '@' ||
  c = '[' || c = '\\' || c = ']' || c = '^' || c = '|'

/-- WHATWG forbidden domain code points: the forbidden host code points plus
C0 controls, %, and DEL. -/
def forbiddenDomainChar (c : Char) : Bool :=
  forbiddenHostChar c || c.toNat ≤ 31 || c.toNat = 127 || c = '%'

/-- Lenient percent-decoding as applied to domains: well-formed %HH escapes
become bytes, everything else (including +) is kept literally. -/
def percentDecodeHost : List Char → List Char
  | [] => []
  | [a] => [a]
  | [a, b] => a :: percentDecodeHost [b]
  | a :: h1 :: h2 :: t =>
    if a = '%' then
      if isHexDigit h1 && isHexDigit h2 then
        Char.ofNat (16 * hexVal h1 + hexVal h2) :: percentDecodeHost t
      else a :: percentDecodeHost (h1 :: h2 :: t)
    else a :: percentDecodeHost (h1 :: h2 :: t)

/-- The host-and-port part of an authority: everything after the last @ (the
part before it is userinfo, which the hostname drops). -/
def afterLastAt (l : List Char) : List Char :=
  (l.reverse.takeWhile (fun c => c ≠ '@')).reverse

/-- Decimal value of an ASCII digit string. -/
def natOfDigits (l : List Char) : Nat :=
  l.foldl (fun acc c => acc * 10 + (c.toNat - 48)) 0

/-- WHATWG "part is a number" check on the last dotted label: non-empty and
all digits, or 0x/0X followed by hex digits (possibly none). -/
def isNumberPart (l : List Char) : Bool :=
  match l with
  | [] => false
  | _ =>
    l.all isAsciiDigit ||
      (match l with
       | a :: b :: rest => a = '0' && (b = 'x' || b = 'X') && rest.all isHexDigit
       | _ => false)

/-- WHATWG IPv4 number parser for one part: 0x/0X prefix means hex (empty
rest is 0), a leading 0 with more digits means octal, otherwise decimal;
failure for an empty part or a digit outside the radix. -/
def ipv4Number (l : List Char) : Option Nat :=
  match l with
  | [] => none
  | [a] => if isAsciiDigit a then some (a.toNat - 48) else none
  | a :: b :: rest =>
    if a = '0' && (b = 'x' || b = 'X') then
      if rest.all isHexDigit then
        some (rest.foldl (fun acc c => acc * 16 + hexVal c) 0)
      else none
    else if a = '0' then
      if (b :: rest).all (fun c => 48 ≤ c.toNat && c.toNat ≤ 55) then
        some ((b :: rest).foldl (fun acc c => acc * 8 + (c.toNat - 48)) 0)
      else none
    else if l.all isAsciiDigit then some (natOfDigits l) else none

/-- ipv4Number applied to every dotted part. -/
def ipv4Numbers : List (List Char) → Option (List Nat)
  | [] => some []
  | p :: r =>
    match ipv4Number p, ipv4Numbers r with
    | some n, some ns => some (n :: ns)
    | _, _ => none

/-- Decimal digits of a number, as bytes. -/
def natToDecChars (n : Nat) : List Char :=
  (Nat.repr n).toList

/-- WHATWG IPv4 serializer: the four bytes of the address in dotted decimal. -/
def serializeIPv4 (n : Nat) : List Char :=
  natToDecChars (n / 16777216 % 256) ++ '.' :: natToDecChars (n / 65536 % 256) ++
    '.' :: natToDecChars (n / 256 % 256) ++ '.' :: natToDecChars (n % 256)

/-- WHATWG IPv4 parser on the dotted parts of a host whose last part is a
number: at most 4 parts, every part a valid number, intermediate parts below
256, the last below 256^(5 - count); success yields the canonical dotted
serialization, failure models the constructor throwing. -/
def ipv4Parse (parts : List (List Char)) : Option (List Char) :=
  if 4 < parts.length then none
  else
    match ipv4Numbers parts with
    | none => none
    | some ns =>
      match ns.getLast? with
      | none => none
      | some lastv =>
        if ns.dropLast.all (fun n => n < 256) && decide (lastv < 256 ^ (5 - ns.length)) then
          some (serializeIPv4 ((ns.dropLast.foldl (fun acc n => acc * 256 + n) 0) *
            256 ^ (5 - ns.length) + lastv))
        else none

/-- Hostname from the authority section of a URL.  Strips userinfo at the
last @, validates the port (digits, at most 65535), and for special schemes
percent-decodes the domain, rejects forbidden domain code points, ASCII
lower-cases it and runs the IPv4 parser when the last label is a number; an
opaque (non-special) host is validated against the forbidden host code
points and kept verbatim.  none conflates the constructor throwing with the
out-of-scope regions listed at urlHostname. -/
def hostFromAuthority (authority : List Char) (special : Bool) : Option (List Char) :=
  let hostPort := afterLastAt authority
  if hostPort.head? = some '[' then none
  else
    let host := hostPort.takeWhile (fun c => c ≠ ':')
    let portStr := (hostPort.dropWhile (fun c => c ≠ ':')).drop 1
    if host.isEmpty && !hostPort.isEmpty then none
    else if !portStr.all isAsciiDigit then none
    else if !portStr.isEmpty && !decide (natOfDigits portStr ≤ 65535) then none
    else if special then
      if host.isEmpty then none
      else
        let decoded := percentDecodeHost host
        if decoded.any forbiddenDomainChar then none
        else if decoded.any (fun c => 128 ≤ c.toNat) then none
        else
          let lower := decoded.map asciiLower
          let labels := splitOnChar '.' lower
          if labels.any (fun lb => (S ("xn--")).isPrefixOf lb) then none
          else
            let parts := if labels.getLast? = some [] then labels.dropLast else labels
            match parts.getLast? with
            | none => some lower
            | some lastPart =>
              if isNumberPart lastPart then ipv4Parse parts else some lower
    else
      if host.any forbiddenHostChar then none
      else some host

/-- Model of new URL(videoUrl).hostname as the proxy route uses it.  The
input is stripped as the constructor does; a string without a scheme throws
(none).  Special schemes (http, https, ws, wss, ftp) skip any run of slashes
and backslashes before the authority, which extends to the next /, \\, ? or
#; other schemes have an authority only after an explicit //, and otherwise
an empty hostname.  Outside the modelled region the function returns none
rather than a wrong host, so the theorems below assert nothing there: the
file scheme, IPv6 bracket literals, hosts needing IDNA (a byte at or above
128 after percent-decoding, or an xn-- label) — none of which the four-entry
allow-list can ever match. -/
def urlHostname (s0 : List Char) : Option (List Char) :=
  let s := stripUrlInput s0
  match parseScheme s with
  | none => none
  | some (scheme, rest) =>
    if scheme = S ("file") then none
    else if specialSchemes.contains scheme then
      let r := rest.dropWhile (fun c => c = '/' || c = '\\')
      hostFromAuthority (r.takeWhile (fun c => !(c = '/' || c = '\\' || c = '?' || c = '#'))) true
    else
      match rest with
      | '/' :: '/' :: r2 =>
        hostFromAuthority (r2.takeWhile (fun c => !(c = '/' || c = '?' || c = '#'))) false
      | _ => some []

/-- Outcome of the upstream fetch the proxy performs, supplied by the
environment. -/
structure FetchResp where
  ok : Bool
  status : Nat
  contentType : Option (List Char)
deriving DecidableEq

/-- A response of the proxy route: a JSON error payload with a status, or a
streamed body with a status and response headers. -/
inductive ProxyResult
  | json (status : Nat) (errorMsg : List Char)
  | raw (status : Nat) (headers : List (List Char × List Char))
deriving DecidableEq

/-- The CORS headers the proxy route attaches. -/
def corsHeaders : List (List Char × List Char) :=
  [(S ("Access-Control-Allow-Origin"), S ("*")),
   (S ("Access-Control-Allow-Methods"), S ("GET, HEAD, OPTIONS")),
   (S ("Access-Control-Allow-Headers"), S ("Content-Type"))]

/-- src/unnamed/part_004, GET handler of /api/video-proxy.  The fetch result
is an environment parameter; Except.error models a thrown fetch, which the
surrounding try/catch turns into a 500. -/
def videoProxyGET (requestUrl : List Char) (fetchResult : Except Unit FetchResp) : ProxyResult :=
  match searchParamGet requestUrl (S ("url")) with
  | none => ProxyResult.json 400 (S ("Video URL is required"))
  | some videoUrl =>
    if videoUrl.isEmpty then ProxyResult.json 400 (S ("Video URL is required"))
    else
      match urlHostname videoUrl with
      | none => ProxyResult.json 500 (S ("Internal server error"))
      | some host =>
        if !(allowedDomains.contains host) then ProxyResult.json 403 (S ("Domain not allowed"))
        else
          match fetchResult with
          | Except.error _ => ProxyResult.json 500 (S ("Internal server error"))
          | Except.ok resp =>
            if !resp.ok then ProxyResult.json resp.status (S ("Failed to fetch video"))
            else
              ProxyResult.raw 200
                ((S ("Content-Type"), resp.contentType.getD (S ("video/mp4"))) ::
                 corsHeaders ++ [(S ("Cache-Control"), S ("public, max-age=31536000"))])

/-- src/unnamed/part_004, OPTIONS handler of /api/video-proxy. -/
def videoProxyOPTIONS : ProxyResult :=
  ProxyResult.raw 200 corsHeaders

/-! ### Render progress route (src/unnamed/part_005) -/

/-- The fields of the Remotion getRenderProgress answer that the route reads.
overallProgress is a number in [0,1]; it is modelled as a rational, which is
exact for the only operation applied to it (a two-argument max). -/
structure RenderProgressInfo where
  fatalErrorEncountered : Bool
  errors : List (List Char)
  done : Bool
  outputFile : List Char
  outputSizeInBytes : Nat
  overallProgress : ℚ
deriving DecidableEq

/-- The ProgressResponse union returned by the progress route. -/
inductive ProgressResponse
  | error (message : List Char)
  | done (url : List Char) (size : Nat)
  | progress (progress : ℚ)
deriving DecidableEq

/-- src/unnamed/part_005, body of the progress POST handler after a successful
getRenderProgress call. -/
def progressHandler (rp : RenderProgressInfo) : ProgressResponse :=
  if rp.fatalErrorEncountered then
    ProgressResponse.error (rp.errors.headD (S ("Unknown error occurred during rendering")))
  else if rp.done then
    ProgressResponse.done rp.outputFile rp.outputSizeInBytes
  else
    ProgressResponse.progress (max (3 / 100 : ℚ) rp.overallProgress)

/-- src/unnamed/part_005, the whole progress POST handler: Except.error models
a thrown getRenderProgress call (transport failure), carrying some message
when the thrown value is an Error and none otherwise. -/
def progressPOST (outcome : Except (Option (List Char)) RenderProgressInfo) : ProgressResponse :=
  match outcome with
  | Except.ok rp => progressHandler rp
  | Except.error e =>
    ProgressResponse.error (S ("Failed to get render progress: ") ++ e.getD (S ("Unknown error")))

/-! ### Keyframe extraction and cache (src/components/editor/version-7.0.0/hooks/use-keyframes.tsx)

The per-overlay cache store behind getKeyframes/updateKeyframes lives in
contexts/keyframe-context, which is not part of the sources; following the
spec, updateKeyframes replaces the overlay's entry as a unit and getKeyframes
reads it, so the store is modelled as the optional entry of the one overlay
under consideration, passed in and (on commit) replaced whole. -/

/-- Modelled from the spec: the overlay variant kinds {clip/video, image,
text, audio, sound} of the OverlayType enum (types.ts is not among the
sources); only the video case matters to the keyframe hook. -/
inductive OverlayType
  | video
  | image
  | text
  | audio
  | sound
deriving DecidableEq

/-- A successfully extracted frame: its frame-number offset and the data URL
returned by extractVideoFrame. -/
structure FrameInfo where
  frameNumber : Nat
  dataUrl : List Char
deriving DecidableEq

/-- The KeyframeCacheEntry committed by updateKeyframes, as built at
use-keyframes.tsx lines 464-469. -/
structure KeyframeCacheEntry where
  frames : List (List Char)
  previewFrames : List Nat
  durationInFrames : Nat
  lastUpdated : Nat
deriving DecidableEq

/-- The reference the hook keeps about the previously processed overlay. -/
structure PrevOverlayRef where
  id : List Char
  src : Option (List Char)
  durationInFrames : Option Nat
deriving DecidableEq

/-- JavaScript a || b on an optional string: a wins unless it is absent or
empty (falsy). -/
def jsOrStr (a b : Option (List Char)) : Option (List Char) :=
  match a with
  | some s => if s.isEmpty then b else some s
  | none => b

/-- use-keyframes.tsx lines 168-172: whether the overlay differs from the one
recorded in previousOverlayRef. -/
def shouldReextract (prev : Option PrevOverlayRef) (id : List Char)
    (videoUrl : Option (List Char)) (durationInFrames : Option Nat) : Bool :=
  match prev with
  | none => true
  | some p => p.id ≠ id || p.src ≠ videoUrl || p.durationInFrames ≠ durationInFrames

/-- The required prefix of a well-formed frame payload. -/
def dataImagePrefix : List Char :=
  S ("data:image")

/-- use-keyframes.tsx lines 197-204: the cache entry is used when it is
non-empty, every payload passes the data:image integrity check, its duration
matches the overlay's current duration, and it is fresher than 300000 ms.
(Nat subtraction agrees with the JavaScript comparison also when lastUpdated
exceeds now: both sides then accept the entry.) -/
def cacheFresh (e : KeyframeCacheEntry) (durationInFrames : Option Nat) (now : Nat) : Bool :=
  !e.frames.isEmpty &&
  e.frames.all (fun f => dataImagePrefix.isPrefixOf f) &&
  (some e.durationInFrames == durationInFrames) &&
  decide (now - e.lastUpdated < 300000)

/-- use-keyframes.tsx lines 205-210: the FrameInfo list rebuilt from a cache
hit; a frames entry missing at some index (undefined) is modelled as []. -/
def cacheDisplay (e : KeyframeCacheEntry) : List FrameInfo :=
  (List.range e.previewFrames.length).map
    (fun i => { frameNumber := e.previewFrames.getD i 0, dataUrl := e.frames.getD i [] })

/-- The environment of one extraction run: the clock, the outcome of the
accessibility probe, whether the dimension/load phase succeeds, the frame
count computed by calculateFrameCount (clamped to [5,30] by the source), the
string resolved by extractVideoFrame for a given frame offset and retry
index (extractVideoFrame always resolves with a string, see the frame
extractor model below), and the order in which the parallel extractions of a
batch settle, as a reordering of each batch's successful frames. -/
structure ExtractionEnv where
  now : Nat
  accessible : Bool
  loadOk : Bool
  frameCount : Nat
  attemptResult : Nat → Nat → List Char
  settle : Nat → List FrameInfo → List FrameInfo

/-- use-keyframes.tsx lines 386-434: one frame's extraction with up to
MAX_RETRIES = 5 attempts; an attempt succeeds when the resolved string starts
with data:image, and a frame whose five attempts all fail yields null. -/
def tryFrame (env : ExtractionEnv) (frameNumber : Nat) : Option FrameInfo :=
  match (List.range 5).find? (fun k => dataImagePrefix.isPrefixOf (env.attemptResult frameNumber k)) with
  | some k => some { frameNumber := frameNumber, dataUrl := env.attemptResult frameNumber k }
  | none => none

/-- The offsets are processed in batches of EXTRACTION_BATCH_SIZE = 3. -/
def chunks3 {α : Type} : List α → List (List α)
  | [] => []
  | [a] => [[a]]
  | [a, b] => [[a, b]]
  | a :: b :: c :: t => [a, b, c] :: chunks3 t

/-- Concatenation of a list of batches. -/
def listJoin {α : Type} : List (List α) → List α
  | [] => []
  | b :: r => b ++ listJoin r

/-- State threaded through the batch loop.  extracted and errors are the
source's extractedFrames and extractionErrors; attempted records every offset
an extraction attempt was issued for, and trace records (cumulative errors,
extracted count) at each completed batch boundary — observation fields used
to state the error-ceiling property. -/
structure BatchState where
  extracted : List FrameInfo
  errors : Nat
  attempted : List Nat
  trace : List (Nat × Nat)
deriving DecidableEq

/-- use-keyframes.tsx lines 375-460, the labelled extractionLoop: each batch
is extracted in parallel (successes are pushed in settlement order), failures
are added to the error count, and the loop breaks once the errors reach
MAX_ERRORS = 10 provided at least one frame has been extracted. -/
def runBatches (env : ExtractionEnv) : List (List Nat) → Nat → BatchState → BatchState
  | [], _, st => st
  | b :: rest, i, st =>
    let results := b.map (tryFrame env)
    let pushed := env.settle i (results.filterMap id)
    let extracted2 := st.extracted ++ pushed
    let errors2 := st.errors + (results.filter (fun r => r.isNone)).length
    let st2 : BatchState :=
      { extracted := extracted2, errors := errors2,
        attempted := st.attempted ++ b, trace := st.trace ++ [(errors2, extracted2.length)] }
    if 10 ≤ errors2 && !extracted2.isEmpty then st2
    else runBatches env rest (i + 1) st2

/-- Math.ceil(n * 0.7) for the commit threshold.  For the clamped frame
counts 5..30 the IEEE double product never crosses an integer boundary, so
the exact rational ceiling used here agrees with the source. -/
def ceil7 (n : Nat) : Nat :=
  (7 * n + 9) / 10

/-- Everything one run of performExtraction observably produces: the entry
passed to updateKeyframes (none when no cache write happens), the final
frames state shown to the UI, whether any network or media I/O was performed
(the accessibility probe is the first such operation), and the observation
fields extracted/trace/attempted of the batch loop. -/
structure ExtractionResult where
  commit : Option KeyframeCacheEntry
  framesShown : List FrameInfo
  accessedMedia : Bool
  extracted : List FrameInfo
  trace : List (Nat × Nat)
  attempted : List Nat
deriving DecidableEq

/-- use-keyframes.tsx lines 214-474, the part of performExtraction past the
cache check: accessibility probe, dimension/load phase (loadOk false models
the metadata timeout, zero dimensions or a failed load, all caught by the
surrounding try), frame planning, the batch loop, and the yield-threshold
commit. -/
def extractCore (durationInFrames : Option Nat) (env : ExtractionEnv) : ExtractionResult :=
  if !env.accessible then
    { commit := none, framesShown := [], accessedMedia := true,
      extracted := [], trace := [], attempted := [] }
  else if !env.loadOk then
    { commit := none, framesShown := [], accessedMedia := true,
      extracted := [], trace := [], attempted := [] }
  else
    let d := durationInFrames.getD 0
    let frameInterval := max 1 (d / env.frameCount)
    let frameNumbers := (List.range env.frameCount).map (fun i => min (i * frameInterval) (d - 1))
    let st := runBatches env (chunks3 frameNumbers) 0
      { extracted := [], errors := 0, attempted := [], trace := [] }
    if ceil7 env.frameCount ≤ st.extracted.length then
      { commit := some
          { frames := st.extracted.map (fun f => f.dataUrl),
            previewFrames := st.extracted.map (fun f => f.frameNumber),
            durationInFrames := d, lastUpdated := env.now },
        framesShown := st.extracted, accessedMedia := true,
        extracted := st.extracted, trace := st.trace, attempted := st.attempted }
    else
      { commit := none, framesShown := st.extracted, accessedMedia := true,
        extracted := st.extracted, trace := st.trace, attempted := st.attempted }

/-- use-keyframes.tsx lines 154-480, performExtraction: the early guards
(non-video overlay, missing or empty video URL, unchanged overlay), then the
cache check, then the extraction core.  The overlay's cache entry and the
environment are explicit parameters. -/
def performExtraction (typ : OverlayType) (id : List Char)
    (src content : Option (List Char)) (durationInFrames : Option Nat)
    (prev : Option PrevOverlayRef) (cache : Option KeyframeCacheEntry)
    (env : ExtractionEnv) : ExtractionResult :=
  if typ ≠ OverlayType.video then
    { commit := none, framesShown := [], accessedMedia := false,
      extracted := [], trace := [], attempted := [] }
  else
    match jsOrStr src content with
    | none =>
      { commit := none, framesShown := [], accessedMedia := false,
        extracted := [], trace := [], attempted := [] }
    | some vu =>
      if vu.isEmpty then
        { commit := none, framesShown := [], accessedMedia := false,
          extracted := [], trace := [], attempted := [] }
      else if !shouldReextract prev id (some vu) durationInFrames then
        { commit := none, framesShown := [], accessedMedia := false,
          extracted := [], trace := [], attempted := [] }
      else
        match cache with
        | some e =>
          if cacheFresh e durationInFrames env.now then
            { commit := none, framesShown := cacheDisplay e, accessedMedia := false,
              extracted := [], trace := [], attempted := [] }
          else extractCore durationInFrames env
        | none => extractCore durationInFrames env

/-- The per-overlay cache entry after a run: replaced whole by the committed
entry, otherwise left as it was. -/
def cacheAfter (cache : Option KeyframeCacheEntry) (r : ExtractionResult) :
    Option KeyframeCacheEntry :=
  match r.commit with
  | some e => some e
  | none => cache

/-! ### Frame extractor (src/components/editor/version-7.0.0/utils/video-frame-extractor.ts)

extractVideoFrame is event-driven: its promise is settled by the first video
event whose handler resolves.  The environment supplies the sequence of video
events the browser fires; the 30-second timeout is appended to every
sequence because the source never clears it. -/

/-- A video element event as seen by extractVideoFrame's handlers: a load
event whose handler may throw while seeking, a seeked event whose handler may
throw while drawing and otherwise resolves with the canvas data URL, an error
event, and the 30-second timeout. -/
inductive VideoEvt
  | loaded (seekThrows : Bool)
  | seeked (drawThrows : Bool) (dataUrl : List Char)
  | errored
  | timeout
deriving DecidableEq

/-- The first event that settles the promise, and the value it resolves:
a throwing load handler, a throwing seeked handler, an error event and the
timeout all resolve the empty string; a successful seeked handler resolves
the data URL; a non-throwing load handler only issues the seek and settles
nothing. -/
def firstSettle : List VideoEvt → Option (List Char)
  | [] => none
  | VideoEvt.loaded true :: _ => some []
  | VideoEvt.loaded false :: rest => firstSettle rest
  | VideoEvt.seeked true _ :: _ => some []
  | VideoEvt.seeked false d :: _ => some d
  | VideoEvt.errored :: _ => some []
  | VideoEvt.timeout :: _ => some []

/-- video-frame-extractor.ts lines 15-109, extractVideoFrame: when the 2d
canvas context is unavailable the promise resolves with the empty string at
once; otherwise the first settling event decides, and the never-cleared
30-second timeout is appended so a settling event always exists.  The result
is some r exactly when the promise resolves with r (none would be a promise
that rejects or hangs, which the theorem below rules out). -/
def extractVideoFrame (ctxOk : Bool) (events : List VideoEvt) : Option (List Char) :=
  if !ctxOk then some []
  else firstSettle (events ++ [VideoEvt.timeout])

/-! ### Concrete runs used by the claim theorems -/

/-- Run refuting C2: every extraction succeeds at once, but the first batch
settles in reverse order. -/
def c2env : ExtractionEnv :=
  { now := 1000, accessible := true, loadOk := true, frameCount := 5,
    attemptResult := fun _ _ => S ("data:image/jpeg;base64,AA"),
    settle := fun i l => if i = 0 then l.reverse else l }

/-- Run witnessing the amended C2: same extractions, settlement in issue
order. -/
def c2wenv : ExtractionEnv :=
  { now := 1000, accessible := true, loadOk := true, frameCount := 5,
    attemptResult := fun _ _ => S ("data:image/jpeg;base64,AA"),
    settle := fun _ l => l }

/-- Run witnessing C3: every extraction succeeds. -/
def c3env : ExtractionEnv :=
  { now := 42, accessible := true, loadOk := true, frameCount := 5,
    attemptResult := fun _ _ => S ("data:image/png;base64,BB"),
    settle := fun _ l => l }

/-- Cache entry refuting C7: fresh, duration-matching, every payload (there
are none) passes the integrity check, yet empty. -/
def c7entry : KeyframeCacheEntry :=
  { frames := [], previewFrames := [], durationInFrames := 100, lastUpdated := 500 }

/-- Environment for the C7 runs. -/
def c7env : ExtractionEnv :=
  { now := 500, accessible := true, loadOk := true, frameCount := 5,
    attemptResult := fun _ _ => S ("data:image/jpeg;a"),
    settle := fun _ l => l }

/-- Non-empty fresh cache entry witnessing the amended C7. -/
def c7wentry : KeyframeCacheEntry :=
  { frames := [S ("data:image/png;base64,CC")], previewFrames := [0],
    durationInFrames := 100, lastUpdated := 500 }

/-- Run refuting C8: the first four batches fail wholesale (12 failures),
the fifth succeeds. -/
def c8env : ExtractionEnv :=
  { now := 0, accessible := true, loadOk := true, frameCount := 15,
    attemptResult := fun f _ => if 120 ≤ f then S ("data:image/png;x") else S (""),
    settle := fun _ l => l }

/-- Run witnessing the amended C8: two batches, no failures. -/
def c8wenv : ExtractionEnv :=
  { now := 0, accessible := true, loadOk := true, frameCount := 5,
    attemptResult := fun _ _ => S ("data:image/jpeg;w"),
    settle := fun _ l => l }

/-- The error-ceiling break condition of the batch loop, read off a trace
entry (cumulative failures, extracted count): at least 10 failures and at
least one extracted frame. -/
def stopHit (p : Nat × Nat) : Prop :=
  10 ≤ p.1 ∧ p.2 ≠ 0

/-! ## Theorems -/

theorem firstSettle_total : ∀ (events : List VideoEvt),
    ∃ r, firstSettle (events ++ [VideoEvt.timeout]) = some r ∧
      (r = [] ∨ VideoEvt.seeked false r ∈ events)
  | [] => ⟨[], rfl, Or.inl rfl⟩
  | VideoEvt.loaded true :: _ => ⟨[], rfl, Or.inl rfl⟩
  | VideoEvt.loaded false :: rest =>
    match firstSettle_total rest with
    | ⟨r, hr, hmem⟩ => ⟨r, hr, hmem.imp id (List.mem_cons_of_mem _)⟩
  | VideoEvt.seeked true _ :: _ => ⟨[], rfl, Or.inl rfl⟩
  | VideoEvt.seeked false d :: _ => ⟨d, rfl, Or.inr (List.mem_cons_self _ _)⟩
  | VideoEvt.errored :: _ => ⟨[], rfl, Or.inl rfl⟩
  | VideoEvt.timeout :: _ => ⟨[], rfl, Or.inl rfl⟩

/-- C10: for every canvas-context outcome and every sequence of video events,
extractVideoFrame resolves (the promise neither rejects nor hangs, since the
30-second timeout is never cleared), and the resolved value is the empty
string on every failure path, or the data URL produced by a successful seeked
handler. -/
theorem c10_extract_video_frame_total (ctxOk : Bool) (events : List VideoEvt) :
    ∃ r, extractVideoFrame ctxOk events = some r ∧
      (r = [] ∨ VideoEvt.seeked false r ∈ events) := by
  cases ctxOk with
  | false => exact ⟨[], rfl, Or.inl rfl⟩
  | true =>
    obtain ⟨r, hr, hm⟩ := firstSettle_total events
    exact ⟨r, hr, hm⟩

theorem convField_eq_map (v : Option (List Char)) :
    convField v = v.map convertUrlForLambda := by
  cases v with
  | none => rfl
  | some s => cases s with
    | nil => rfl
    | cons a t => rfl

/-- C9: processOverlaysForLambda maps each overlay to a new overlay in which
exactly the five URL properties (src, content, file, audio_url, video_url),
at top level and inside styles, are converted through convertUrlForLambda,
while every other component (rest, and the styles rest) is unchanged; the
output has the same length as the input, and the input is not mutated (the
embedding is purely functional, matching the source's shallow copies). -/
theorem c9_process_overlays_for_lambda {α β : Type} (overlays : List (Overlay α β)) :
    (processOverlaysForLambda overlays).length = overlays.length ∧
    processOverlaysForLambda overlays = overlays.map processOverlayForLambda ∧
    ∀ o : Overlay α β,
      (processOverlayForLambda o).src = o.src.map convertUrlForLambda ∧
      (processOverlayForLambda o).content = o.content.map convertUrlForLambda ∧
      (processOverlayForLambda o).file = o.file.map convertUrlForLambda ∧
      (processOverlayForLambda o).audio_url = o.audio_url.map convertUrlForLambda ∧
      (processOverlayForLambda o).video_url = o.video_url.map convertUrlForLambda ∧
      (processOverlayForLambda o).styles = o.styles.map (fun st =>
        { src := st.src.map convertUrlForLambda
          content := st.content.map convertUrlForLambda
          file := st.file.map convertUrlForLambda
          audio_url := st.audio_url.map convertUrlForLambda
          video_url := st.video_url.map convertUrlForLambda
          rest := st.rest }) ∧
      (processOverlayForLambda o).rest = o.rest := by
  refine ⟨by simp [processOverlaysForLambda], rfl, ?_⟩
  intro o
  refine ⟨convField_eq_map _, convField_eq_map _, convField_eq_map _,
    convField_eq_map _, convField_eq_map _, ?_, rfl⟩
  cases h : o.styles with
  | none => simp [processOverlayForLambda, h]
  | some st => simp [processOverlayForLambda, h, convField_eq_map]

/-- C4: each progress-poll response from the executor is translated by the
route as specified: a fatal error yields an error response whose message is
the first reported error or the generic fallback; completion yields the done
response with output URL and byte size; anything else yields a progress
response whose value is the maximum of 0.03 and the reported overall
progress, hence at least 0.03. -/
theorem c4_progress_poll (rp : RenderProgressInfo) :
    (rp.fatalErrorEncountered = true →
      progressHandler rp =
        ProgressResponse.error (rp.errors.headD (S ("Unknown error occurred during rendering")))) ∧
    (rp.fatalErrorEncountered = false → rp.done = true →
      progressHandler rp = ProgressResponse.done rp.outputFile rp.outputSizeInBytes) ∧
    (rp.fatalErrorEncountered = false → rp.done = false →
      progressHandler rp = ProgressResponse.progress (max (3 / 100 : ℚ) rp.overallProgress) ∧
      (3 / 100 : ℚ) ≤ max (3 / 100 : ℚ) rp.overallProgress) := by
  refine ⟨fun h => ?_, fun h1 h2 => ?_, fun h1 h2 => ⟨?_, le_max_left _ _⟩⟩
  · simp [progressHandler, h]
  · simp [progressHandler, h1, h2]
  · simp [progressHandler, h1, h2]

/-- Witness for C4: Scenario E (fatal error with message OOM), a completed
render, and an in-flight render at reported progress 0. -/
theorem c4_witness :
    progressHandler
        { fatalErrorEncountered := true, errors := [S ("OOM")], done := false,
          outputFile := [], outputSizeInBytes := 0, overallProgress := 0 } =
      ProgressResponse.error (S ("OOM")) ∧
    progressHandler
        { fatalErrorEncountered := false, errors := [], done := true,
          outputFile := S ("https://bucket/out.mp4"), outputSizeInBytes := 1234,
          overallProgress := 1 } =
      ProgressResponse.done (S ("https://bucket/out.mp4")) 1234 ∧
    progressHandler
        { fatalErrorEncountered := false, errors := [], done := false,
          outputFile := [], outputSizeInBytes := 0, overallProgress := 0 } =
      ProgressResponse.progress (max (3 / 100 : ℚ) 0) ∧
    (3 / 100 : ℚ) ≤ max (3 / 100 : ℚ) (0 : ℚ) := by
  refine ⟨?_, ?_, ?_, ?_⟩
  · exact (c4_progress_poll _).1 rfl
  · exact (c4_progress_poll _).2.1 rfl rfl
  · exact ((c4_progress_poll _).2.2 rfl rfl).1
  · exact ((c4_progress_poll
      { fatalErrorEncountered := false, errors := [], done := false, outputFile := [],
        outputSizeInBytes := 0, overallProgress := 0 }).2.2 rfl rfl).2

/-- C5 counterexample: a thrown network error during the poll produces the
very same terminal error-typed outcome as an executor-reported fatal error
with the corresponding message, so transport failures are not surfaced as a
state distinct from the executor-fatal error state. -/
theorem c5_counterexample :
    progressPOST (Except.error (some (S ("network down")))) =
      ProgressResponse.error (S ("Failed to get render progress: network down")) ∧
    progressHandler
        { fatalErrorEncountered := true,
          errors := [S ("Failed to get render progress: network down")], done := false,
          outputFile := [], outputSizeInBytes := 0, overallProgress := 0 } =
      ProgressResponse.error (S ("Failed to get render progress: network down")) := by
  exact ⟨by decide, by decide⟩

/-- C5 amended: a transport failure while polling yields the terminal-shaped
error response whose message is the string
"Failed to get render progress: " followed by the thrown error's message (or
"Unknown error"); it is distinguishable from an executor-reported fatal
error only by its message text, not by its type. -/
theorem c5_transport_failure_shape (e : Option (List Char)) :
    progressPOST (Except.error e) =
      ProgressResponse.error
        (S ("Failed to get render progress: ") ++ e.getD (S ("Unknown error"))) := rfl

theorem urlHostname_ne_nil {v h : List Char} (hv : urlHostname v = some h) :
    v.isEmpty = false := by
  cases v with
  | cons a t => rfl
  | nil =>
    rw [show urlHostname [] = none from rfl] at hv
    exact Option.noConfusion hv

/-- C6: the media proxy GET answers 400 when the url parameter is absent and
403 when the decoded URL's host is not on the allow-list, and OPTIONS is
answered with status 200 carrying the CORS headers. -/
theorem c6_video_proxy (requestUrl : List Char) (fetchResult : Except Unit FetchResp) :
    (searchParamGet requestUrl (S ("url")) = none →
      videoProxyGET requestUrl fetchResult = ProxyResult.json 400 (S ("Video URL is required"))) ∧
    (∀ v h, searchParamGet requestUrl (S ("url")) = some v → urlHostname v = some h →
      allowedDomains.contains h = false →
      videoProxyGET requestUrl fetchResult = ProxyResult.json 403 (S ("Domain not allowed"))) ∧
    videoProxyOPTIONS = ProxyResult.raw 200 corsHeaders := by
  refine ⟨fun h => by simp [videoProxyGET, h], fun v h hst hv hcont => ?_, rfl⟩
  have hne : v.isEmpty = false := urlHostname_ne_nil hv
  have hmem : h ∉ allowedDomains := by
    intro hm
    have h1 : allowedDomains.contains h = true := List.elem_iff.mpr hm
    rw [h1] at hcont
    simp at hcont
  simp [videoProxyGET, hst, hne, hv, hmem]

/-- Witness for C6: a request without the url parameter gets 400; Scenario D
(host evil.example.com, not allow-listed) gets 403; and a URL smuggling an
allow-listed domain into the userinfo (http://images.nymia.ai:80@evil.com/)
still gets 403, its hostname being evil.com. -/
theorem c6_witness :
    videoProxyGET (S ("http://localhost:3000/api/video-proxy"))
        (Except.ok { ok := true, status := 200, contentType := none }) =
      ProxyResult.json 400 (S ("Video URL is required")) ∧
    videoProxyGET (S ("http://localhost:3000/api/video-proxy?url=https%3A%2F%2Fevil.example.com%2Fa.mp4"))
        (Except.ok { ok := true, status := 200, contentType := none }) =
      ProxyResult.json 403 (S ("Domain not allowed")) ∧
    videoProxyGET (S ("http://localhost:3000/api/video-proxy?url=http%3A%2F%2Fimages.nymia.ai%3A80%40evil.com%2Fa.mp4"))
        (Except.ok { ok := true, status := 200, contentType := none }) =
      ProxyResult.json 403 (S ("Domain not allowed")) ∧
    videoProxyOPTIONS = ProxyResult.raw 200 corsHeaders :=
  ⟨(c6_video_proxy _ _).1 (by decide),
   (c6_video_proxy _ _).2.1 (S ("https://evil.example.com/a.mp4")) (S ("evil.example.com"))
     (by decide) (by decide) (by decide),
   (c6_video_proxy _ _).2.1 (S ("http://images.nymia.ai:80@evil.com/a.mp4")) (S ("evil.com"))
     (by decide) (by decide) (by decide),
   (c6_video_proxy (S ("x")) (Except.error ())).2.2⟩

theorem ceil7_pos {n : Nat} (h : 1 ≤ n) : 1 ≤ ceil7 n := by
  unfold ceil7
  omega

theorem extractCore_accessedMedia (dif : Option Nat) (env : ExtractionEnv) :
    (extractCore dif env).accessedMedia = true := by
  unfold extractCore
  split
  · rfl
  · split
    · rfl
    · dsimp only
      split
      · rfl
      · rfl

theorem cacheFresh_iff (e : KeyframeCacheEntry) (dif : Option Nat) (now : Nat) :
    cacheFresh e dif now = true ↔
      (e.frames ≠ [] ∧ e.frames.all (fun f => dataImagePrefix.isPrefixOf f) = true ∧
       some e.durationInFrames = dif ∧ now - e.lastUpdated < 300000) := by
  simp [cacheFresh, List.isEmpty_iff, and_assoc]

theorem performExtraction_cases (typ : OverlayType) (id : List Char)
    (src content : Option (List Char)) (dif : Option Nat)
    (prev : Option PrevOverlayRef) (cache : Option KeyframeCacheEntry)
    (env : ExtractionEnv) :
    performExtraction typ id src content dif prev cache env =
      { commit := none, framesShown := [], accessedMedia := false,
        extracted := [], trace := [], attempted := [] } ∨
    (∃ e, cache = some e ∧ cacheFresh e dif env.now = true ∧
      performExtraction typ id src content dif prev cache env =
        { commit := none, framesShown := cacheDisplay e, accessedMedia := false,
          extracted := [], trace := [], attempted := [] }) ∨
    performExtraction typ id src content dif prev cache env = extractCore dif env := by
  unfold performExtraction
  split
  · exact Or.inl rfl
  · split
    · exact Or.inl rfl
    · split
      · exact Or.inl rfl
      · split
        · exact Or.inl rfl
        · split
          · rename_i e
            split
            · rename_i hfresh
              exact Or.inr (Or.inl ⟨e, rfl, hfresh, rfl⟩)
            · exact Or.inr (Or.inr rfl)
          · exact Or.inr (Or.inr rfl)

theorem extractCore_threshold (dif : Option Nat) (env : ExtractionEnv)
    (hfc : 1 ≤ env.frameCount) :
    (ceil7 env.frameCount ≤ (extractCore dif env).extracted.length →
      (extractCore dif env).commit = some
        { frames := (extractCore dif env).extracted.map (fun f => f.dataUrl),
          previewFrames := (extractCore dif env).extracted.map (fun f => f.frameNumber),
          durationInFrames := dif.getD 0, lastUpdated := env.now }) ∧
    ((extractCore dif env).extracted.length < ceil7 env.frameCount →
      (extractCore dif env).commit = none) := by
  unfold extractCore
  split
  · refine ⟨fun hle => ?_, fun _ => rfl⟩
    dsimp at hle
    have := ceil7_pos hfc
    omega
  · split
    · refine ⟨fun hle => ?_, fun _ => rfl⟩
      dsimp at hle
      have := ceil7_pos hfc
      omega
    · dsimp only
      split
      · rename_i hth
        refine ⟨fun _ => rfl, fun hlt => ?_⟩
        dsimp at hlt
        omega
      · rename_i hth
        refine ⟨fun hle => ?_, fun _ => rfl⟩
        dsimp at hle
        omega

/-- C3: for every extraction run, when the number of successfully extracted
frames reaches Math.ceil(0.7 × planned frame count) the per-overlay entry is
committed as a whole new KeyframeCacheEntry built from the extracted frames
with lastUpdated = now (the store replaces the entry as a unit); otherwise no
cache write happens and the pre-existing entry, if any, is unchanged.  The
frame count is the calculateFrameCount result, clamped by the source to
[5,30] (the bounds under which the rational ceiling below equals the
floating-point one). -/
theorem c3_yield_threshold (typ : OverlayType) (id : List Char)
    (src content : Option (List Char)) (dif : Option Nat)
    (prev : Option PrevOverlayRef) (cache : Option KeyframeCacheEntry)
    (env : ExtractionEnv) (hfc : 1 ≤ env.frameCount) (_hfc30 : env.frameCount ≤ 30) :
    (ceil7 env.frameCount ≤ (performExtraction typ id src content dif prev cache env).extracted.length →
      (performExtraction typ id src content dif prev cache env).commit = some
        { frames := (performExtraction typ id src content dif prev cache env).extracted.map
            (fun f => f.dataUrl),
          previewFrames := (performExtraction typ id src content dif prev cache env).extracted.map
            (fun f => f.frameNumber),
          durationInFrames := dif.getD 0, lastUpdated := env.now } ∧
      cacheAfter cache (performExtraction typ id src content dif prev cache env) =
        (performExtraction typ id src content dif prev cache env).commit) ∧
    ((performExtraction typ id src content dif prev cache env).extracted.length < ceil7 env.frameCount →
      (performExtraction typ id src content dif prev cache env).commit = none ∧
      cacheAfter cache (performExtraction typ id src content dif prev cache env) = cache) := by
  rcases performExtraction_cases typ id src content dif prev cache env with h | ⟨e, _, _, h⟩ | h
  · rw [h]
    refine ⟨fun hle => ?_, fun _ => ⟨rfl, rfl⟩⟩
    dsimp at hle
    have := ceil7_pos hfc
    omega
  · rw [h]
    refine ⟨fun hle => ?_, fun _ => ⟨rfl, rfl⟩⟩
    dsimp at hle
    have := ceil7_pos hfc
    omega
  · rw [h]
    obtain ⟨hyes, hno⟩ := extractCore_threshold dif env hfc
    refine ⟨fun hle => ⟨hyes hle, ?_⟩, fun hlt => ⟨hno hlt, ?_⟩⟩
    · rw [cacheAfter, hyes hle]
    · rw [cacheAfter, hno hlt]

/-- Witness for C3: a run of c3env (duration 30, frame count 5) extracts all
five planned frames, 5 ≥ ceil(0.7 × 5) = 4, and the cache entry is committed
whole. -/
theorem c3_witness :
    1 ≤ c3env.frameCount ∧ c3env.frameCount ≤ 30 ∧
    ceil7 c3env.frameCount ≤
      (performExtraction OverlayType.video (S ("1")) (some (S ("v"))) none (some 30)
        none none c3env).extracted.length ∧
    (performExtraction OverlayType.video (S ("1")) (some (S ("v"))) none (some 30)
        none none c3env).commit = some
      { frames := [S ("data:image/png;base64,BB"), S ("data:image/png;base64,BB"),
                   S ("data:image/png;base64,BB"), S ("data:image/png;base64,BB"),
                   S ("data:image/png;base64,BB")],
        previewFrames := [0, 6, 12, 18, 24], durationInFrames := 30, lastUpdated := 42 } := by
  refine ⟨by decide, by decide, by decide, ?_⟩
  have h := ((c3_yield_threshold OverlayType.video (S ("1")) (some (S ("v"))) none (some 30)
    none none c3env (by decide) (by decide)).1 (by decide)).1
  exact h

/-- C7 counterexample: an existing, fresh, duration-matching cache entry all
of whose payloads (vacuously) pass the data:image check — every condition the
claim lists — yet the run performs media I/O instead of returning the cached
frames, because the code additionally requires the entry to be non-empty. -/
theorem c7_counterexample :
    c7entry.frames.all (fun f => dataImagePrefix.isPrefixOf f) = true ∧
    some c7entry.durationInFrames = some 100 ∧
    c7env.now - c7entry.lastUpdated < 300000 ∧
    (performExtraction OverlayType.video (S ("3")) (some (S ("u"))) none (some 100)
      none (some c7entry) c7env).accessedMedia = true := by
  exact ⟨by decide, by decide, by decide, by decide⟩

/-- C7 amended: in an extraction invocation (video overlay, usable URL,
changed overlay) with an existing cache entry, the cached frames are returned
unchanged with no I/O exactly when the entry is non-empty, every payload
starts with data:image, its duration matches, and it is fresher than 300
seconds; when any of these fails (emptiness now included), extraction
proceeds. -/
theorem c7_cache_check (typ : OverlayType) (id : List Char)
    (src content : Option (List Char)) (dif : Option Nat)
    (prev : Option PrevOverlayRef) (e : KeyframeCacheEntry) (env : ExtractionEnv)
    (vu : List Char)
    (h1 : typ = OverlayType.video) (h2 : jsOrStr src content = some vu)
    (h3 : vu.isEmpty = false) (h4 : shouldReextract prev id (some vu) dif = true) :
    ((e.frames ≠ [] ∧ e.frames.all (fun f => dataImagePrefix.isPrefixOf f) = true ∧
      some e.durationInFrames = dif ∧ env.now - e.lastUpdated < 300000) →
      (performExtraction typ id src content dif prev (some e) env).accessedMedia = false ∧
      (performExtraction typ id src content dif prev (some e) env).commit = none ∧
      (performExtraction typ id src content dif prev (some e) env).framesShown = cacheDisplay e) ∧
    (¬(e.frames ≠ [] ∧ e.frames.all (fun f => dataImagePrefix.isPrefixOf f) = true ∧
      some e.durationInFrames = dif ∧ env.now - e.lastUpdated < 300000) →
      (performExtraction typ id src content dif prev (some e) env).accessedMedia = true) := by
  subst h1
  have hred : performExtraction OverlayType.video id src content dif prev (some e) env =
      (if cacheFresh e dif env.now then
        { commit := none, framesShown := cacheDisplay e, accessedMedia := false,
          extracted := [], trace := [], attempted := [] }
       else extractCore dif env) := by
    unfold performExtraction
    simp [h2, h3, h4]
  constructor
  · intro hcond
    have hf : cacheFresh e dif env.now = true := (cacheFresh_iff e dif env.now).mpr hcond
    rw [hred, if_pos hf]
    exact ⟨rfl, rfl, rfl⟩
  · intro hcond
    have hf : ¬(cacheFresh e dif env.now = true) := fun hff =>
      hcond ((cacheFresh_iff e dif env.now).mp hff)
    rw [hred, if_neg hf]
    exact extractCore_accessedMedia dif env

/-- Witness for C7: a non-empty fresh matching entry is returned unchanged
with no I/O performed. -/
theorem c7_witness :
    (performExtraction OverlayType.video (S ("3")) (some (S ("u"))) none (some 100)
      none (some c7wentry) c7env).accessedMedia = false ∧
    (performExtraction OverlayType.video (S ("3")) (some (S ("u"))) none (some 100)
      none (some c7wentry) c7env).commit = none ∧
    (performExtraction OverlayType.video (S ("3")) (some (S ("u"))) none (some 100)
      none (some c7wentry) c7env).framesShown = cacheDisplay c7wentry := by
  exact (c7_cache_check OverlayType.video (S ("3")) (some (S ("u"))) none (some 100)
    none c7wentry c7env (S ("u")) rfl rfl rfl rfl).1 (by decide)

theorem stop_step (e2 : Nat) (ex2 : List FrameInfo)
    (hcond : ¬((decide (10 ≤ e2) && !ex2.isEmpty) = true)) :
    ¬ stopHit (e2, ex2.length) := by
  intro hsh
  obtain ⟨hge, hne⟩ := hsh
  apply hcond
  rw [Bool.and_eq_true]
  refine ⟨decide_eq_true hge, ?_⟩
  rw [Bool.not_eq_true']
  cases h' : ex2.isEmpty
  · rfl
  · exact absurd (by rw [List.isEmpty_iff.mp h']; rfl) hne

theorem runBatches_stop (env : ExtractionEnv) (bs : List (List Nat)) :
    ∀ (i : Nat) (st : BatchState),
      (∀ j, j < st.trace.length → ¬ stopHit (st.trace.getD j (0, 0))) →
      ∀ j, j + 1 < (runBatches env bs i st).trace.length →
        ¬ stopHit ((runBatches env bs i st).trace.getD j (0, 0)) := by
  induction bs with
  | nil =>
    intro i st hst j hj
    simp only [runBatches] at hj ⊢
    exact hst j (Nat.lt_of_succ_lt hj)
  | cons b rest ih =>
    intro i st hst j hj
    simp only [runBatches] at hj ⊢
    split
    · rename_i hcond
      split at hj
      · dsimp only at hj ⊢
        have hjlen : j < st.trace.length := by
          rw [List.length_append] at hj
          simpa using hj
        rw [List.getD_append _ _ _ _ hjlen]
        exact hst j hjlen
      · rename_i hcond2
        exact absurd hcond hcond2
    · rename_i hcond
      split at hj
      · rename_i hcond2
        exact absurd hcond2 hcond
      · refine ih (i + 1) _ ?_ j hj
        intro k hk
        dsimp only at hk ⊢
        rw [List.length_append, List.length_singleton] at hk
        by_cases hk2 : k < st.trace.length
        · rw [List.getD_append _ _ _ _ hk2]
          exact hst k hk2
        · have hke : k = st.trace.length := by omega
          rw [hke, List.getD_append_right _ _ _ _ (le_refl _), Nat.sub_self]
          exact stop_step _ _ hcond

/-- C8 counterexample: with c8env the planned offsets are 0,10,...,140 in
five batches; the first four batches all fail, so cumulative failures reach
12 ≥ 10 at the fourth batch boundary (trace entry (12, 0)), yet the fifth
batch's offsets 120, 130, 140 are still attempted afterwards, because the
source additionally requires at least one extracted frame before stopping. -/
theorem c8_counterexample :
    (performExtraction OverlayType.video (S ("8")) (some (S ("u"))) none (some 150)
      none none c8env).trace = [(3, 0), (6, 0), (9, 0), (12, 0), (12, 3)] ∧
    (performExtraction OverlayType.video (S ("8")) (some (S ("u"))) none (some 150)
      none none c8env).attempted =
      [0, 10, 20, 30, 40, 50, 60, 70, 80, 90, 100, 110, 120, 130, 140] ∧
    10 ≤ (((performExtraction OverlayType.video (S ("8")) (some (S ("u"))) none (some 150)
      none none c8env).trace.getD 3 (0, 0)).1) ∧
    120 ∈ (performExtraction OverlayType.video (S ("8")) (some (S ("u"))) none (some 150)
      none none c8env).attempted := by
  exact ⟨by decide, by decide, by decide, by decide⟩

/-- C8 amended: the error ceiling fires at a batch boundary once cumulative
failures reach 10 AND at least one frame has been extracted; from then on no
further extraction attempts are issued (no later batch is processed, so only
the final processed batch boundary may satisfy the break condition), and the
run proceeds to the yield-threshold step with the frames collected so far. -/
theorem c8_error_ceiling (typ : OverlayType) (id : List Char)
    (src content : Option (List Char)) (dif : Option Nat)
    (prev : Option PrevOverlayRef) (cache : Option KeyframeCacheEntry)
    (env : ExtractionEnv) :
    ∀ j, j + 1 < (performExtraction typ id src content dif prev cache env).trace.length →
      ¬ stopHit ((performExtraction typ id src content dif prev cache env).trace.getD j (0, 0)) := by
  intro j
  rcases performExtraction_cases typ id src content dif prev cache env with h | ⟨e, _, _, h⟩ | h
  · rw [h]; intro hj; simp at hj
  · rw [h]; intro hj; simp at hj
  · rw [h]
    unfold extractCore
    split
    · intro hj; simp at hj
    · split
      · intro hj; simp at hj
      · dsimp only
        split
        · exact runBatches_stop env _ 0 _ (fun k hk => by simp at hk) j
        · exact runBatches_stop env _ 0 _ (fun k hk => by simp at hk) j

/-- Witness for C8: a run with two processed batches and no failures; the
first (non-final) batch boundary does not satisfy the break condition. -/
theorem c8_witness :
    ¬ stopHit ((performExtraction OverlayType.video (S ("9")) (some (S ("w"))) none (some 30)
      none none c8wenv).trace.getD 0 (0, 0)) :=
  c8_error_ceiling OverlayType.video (S ("9")) (some (S ("w"))) none (some 30)
    none none c8wenv 0 (by decide)

theorem tryFrame_frameNumber (env : ExtractionEnv) (f : Nat) (fi : FrameInfo)
    (h : tryFrame env f = some fi) : fi.frameNumber = f := by
  unfold tryFrame at h
  split at h
  · cases h
    rfl
  · cases h

theorem filterMap_tryFrame_sublist (env : ExtractionEnv) (b : List Nat) :
    ((b.filterMap (tryFrame env)).map (fun f => f.frameNumber)).Sublist b := by
  induction b with
  | nil => simp
  | cons a t ih =>
    rw [List.filterMap_cons]
    cases h : tryFrame env a with
    | none => exact ih.cons a
    | some fi =>
      rw [List.map_cons, tryFrame_frameNumber env a fi h]
      exact ih.cons₂ a

theorem runBatches_extracted (env : ExtractionEnv)
    (hsettle : ∀ i l, env.settle i l = l) (bs : List (List Nat)) :
    ∀ (i : Nat) (st : BatchState),
      ∃ ex, (runBatches env bs i st).extracted = st.extracted ++ ex ∧
        ((ex.map (fun f => f.frameNumber)).Sublist (listJoin bs)) := by
  induction bs with
  | nil =>
    intro i st
    exact ⟨[], by simp [runBatches], by simp [listJoin]⟩
  | cons b rest ih =>
    intro i st
    simp only [runBatches, hsettle]
    have hpush : (((b.map (tryFrame env)).filterMap id).map (fun f => f.frameNumber)).Sublist b := by
      rw [List.filterMap_map, Function.id_comp]
      exact filterMap_tryFrame_sublist env b
    split
    · refine ⟨(b.map (tryFrame env)).filterMap id, rfl, ?_⟩
      simp only [listJoin]
      exact hpush.trans (List.sublist_append_left b _)
    · obtain ⟨ex', hex', hsub'⟩ := ih (i + 1) _
      refine ⟨(b.map (tryFrame env)).filterMap id ++ ex', ?_, ?_⟩
      · rw [hex']
        dsimp only
        rw [List.append_assoc]
      · simp only [List.map_append, listJoin]
        exact List.Sublist.append hpush hsub'

theorem frameNumbers_pairwise (fc v c : Nat) :
    List.Pairwise (fun a b => a ≤ b) ((List.range fc).map (fun i => min (i * v) c)) := by
  rw [List.pairwise_map]
  refine (List.pairwise_lt_range fc).imp ?_
  intro a b hab
  have hm : a * v ≤ b * v := Nat.mul_le_mul_right v (le_of_lt hab)
  omega

theorem chunks3_listJoin {α : Type} : ∀ (l : List α), listJoin (chunks3 l) = l
  | [] => rfl
  | [_] => rfl
  | [_, _] => rfl
  | a :: b :: c :: t => by
    simp only [chunks3, listJoin, chunks3_listJoin t]
    rfl

theorem extractCore_sorted (dif : Option Nat) (env : ExtractionEnv)
    (hsettle : ∀ i l, env.settle i l = l) (e : KeyframeCacheEntry)
    (h : (extractCore dif env).commit = some e) :
    List.Pairwise (fun a b => a ≤ b) e.previewFrames := by
  unfold extractCore at h
  split at h
  · simp at h
  · split at h
    · simp at h
    · dsimp only at h
      split at h
      · obtain ⟨ex, hex, hsub⟩ := runBatches_extracted env hsettle
          (chunks3 ((List.range env.frameCount).map
            (fun i => min (i * max 1 (dif.getD 0 / env.frameCount)) (dif.getD 0 - 1)))) 0
          { extracted := [], errors := 0, attempted := [], trace := [] }
        rw [chunks3_listJoin] at hsub
        dsimp only at h
        cases h
        dsimp only
        rw [hex]
        simp only [List.nil_append]
        exact (frameNumbers_pairwise env.frameCount
          (max 1 (dif.getD 0 / env.frameCount)) (dif.getD 0 - 1)).sublist hsub
      · simp at h

/-- C2 counterexample: a run of c2env, whose first batch settles in reverse
order, commits a cache entry whose previewFrames sequence 12, 6, 0, 18, 24 is
not in ascending offset order — the source pushes frames in settlement order
and does not sort before committing. -/
theorem c2_counterexample :
    (performExtraction OverlayType.video (S ("7")) (some (S ("u"))) none (some 30)
      none none c2env).commit = some
      { frames := [S ("data:image/jpeg;base64,AA"), S ("data:image/jpeg;base64,AA"),
                   S ("data:image/jpeg;base64,AA"), S ("data:image/jpeg;base64,AA"),
                   S ("data:image/jpeg;base64,AA")],
        previewFrames := [12, 6, 0, 18, 24], durationInFrames := 30, lastUpdated := 1000 } ∧
    ¬ List.Pairwise (fun a b : Nat => a ≤ b) [12, 6, 0, 18, 24] := by
  exact ⟨by decide, by decide⟩

/-- C2 amended: the committed previewFrames are the successfully extracted
offsets in settlement order (batch by batch); when every batch settles in
the order the offsets were issued, the committed sequence is in ascending
(non-decreasing) offset order, but the implementation does not reorder when
parallel completion order differs, so ascending order holds only under
in-order settlement. -/
theorem c2_commit_order (typ : OverlayType) (id : List Char)
    (src content : Option (List Char)) (dif : Option Nat)
    (prev : Option PrevOverlayRef) (cache : Option KeyframeCacheEntry)
    (env : ExtractionEnv) (hsettle : ∀ i l, env.settle i l = l)
    (e : KeyframeCacheEntry)
    (hc : (performExtraction typ id src content dif prev cache env).commit = some e) :
    List.Pairwise (fun a b => a ≤ b) e.previewFrames := by
  rcases performExtraction_cases typ id src content dif prev cache env with h | ⟨e2, _, _, h⟩ | h
  · rw [h] at hc
    simp at hc
  · rw [h] at hc
    simp at hc
  · rw [h] at hc
    exact extractCore_sorted dif env hsettle e hc

/-- Witness for C2: the same extractions settling in issue order commit the
ascending sequence 0, 6, 12, 18, 24. -/
theorem c2_witness : List.Pairwise (fun a b : Nat => a ≤ b) [0, 6, 12, 18, 24] :=
  c2_commit_order OverlayType.video (S ("7")) (some (S ("u"))) none (some 30) none none
    c2wenv (fun _ _ => rfl)
    { frames := [S ("data:image/jpeg;base64,AA"), S ("data:image/jpeg;base64,AA"),
                 S ("data:image/jpeg;base64,AA"), S ("data:image/jpeg;base64,AA"),
                 S ("data:image/jpeg;base64,AA")],
      previewFrames := [0, 6, 12, 18, 24], durationInFrames := 30, lastUpdated := 1000 }
    (by decide)

theorem takeWhile_middle {α : Type} (p : α → Bool) (c : α) (hc : p c = false) :
    ∀ (l1 l2 : List α), (∀ a ∈ l1, p a = true) → (l1 ++ c :: l2).takeWhile p = l1
  | [], l2, _ => by simp [List.takeWhile_cons, hc]
  | a :: t, l2, hall => by
    have ha := hall a (by simp)
    simp [List.takeWhile_cons, ha,
      takeWhile_middle p c hc t l2 (fun x hx => hall x (by simp [hx]))]

theorem dropWhile_middle {α : Type} (p : α → Bool) (c : α) (hc : p c = false) :
    ∀ (l1 l2 : List α), (∀ a ∈ l1, p a = true) → (l1 ++ c :: l2).dropWhile p = c :: l2
  | [], l2, _ => by simp [List.dropWhile_cons, hc]
  | a :: t, l2, hall => by
    have ha := hall a (by simp)
    simp [List.dropWhile_cons, ha,
      dropWhile_middle p c hc t l2 (fun x hx => hall x (by simp [hx]))]

theorem afterChar_append_not_mem (c : Char) :
    ∀ (l1 l2 : List Char), (∀ a ∈ l1, a ≠ c) → afterChar c (l1 ++ l2) = afterChar c l2
  | [], _, _ => rfl
  | a :: t, l2, hall => by
    have ha := hall a (by simp)
    simp only [List.cons_append, afterChar, if_neg ha]
    exact afterChar_append_not_mem c t l2 (fun x hx => hall x (by simp [hx]))

theorem afterChar_cons_self (c : Char) (l : List Char) :
    afterChar c (c :: l) = some l := by
  simp [afterChar]

theorem splitOnChar_no_sep (c : Char) :
    ∀ (l : List Char), (∀ a ∈ l, a ≠ c) → splitOnChar c l = [l]
  | [], _ => rfl
  | a :: t, hall => by
    have ha := hall a (by simp)
    simp only [splitOnChar, splitOnChar_no_sep c t (fun x hx => hall x (by simp [hx]))]
    simp [if_neg ha]

theorem hasSub_of_isPrefixOf {n l : List Char} (h : n.isPrefixOf l = true) :
    hasSub n l = true := by
  cases l with
  | nil =>
    cases n with
    | nil => rfl
    | cons a t => simp [List.isPrefixOf] at h
  | cons a t =>
    simp only [hasSub, h, Bool.true_or]

theorem isPrefixOf_append_self (l r : List Char) : l.isPrefixOf (l ++ r) = true :=
  List.isPrefixOf_iff_prefix.mpr (List.prefix_append l r)

theorem isPrefixOf_append_of_isPrefixOf {l1 l2 : List Char} (r : List Char)
    (h : l1.isPrefixOf l2 = true) : l1.isPrefixOf (l2 ++ r) = true :=
  List.isPrefixOf_iff_prefix.mpr ((List.isPrefixOf_iff_prefix.mp h).trans (List.prefix_append l2 r))

theorem isEmpty_false_of_cons_prefix {a : Char} {n u : List Char}
    (h : (a :: n).isPrefixOf u = true) : u.isEmpty = false := by
  cases u with
  | nil => simp [List.isPrefixOf] at h
  | cons b t => rfl

theorem hexFin16 : ∀ m : Fin 16,
    isHexDigit (hexUpper m.val) = true ∧ hexVal (hexUpper m.val) = m.val ∧
    hexUpper m.val ≠ '#' ∧ hexUpper m.val ≠ '&' ∧ hexUpper m.val ≠ '=' ∧
    hexUpper m.val ≠ '?' ∧ hexUpper m.val ≠ '+' ∧ hexUpper m.val ≠ '%' := by
  decide

theorem unres_ne (c : Char) (h : isUnresCode c.toNat = true) :
    c ≠ '%' ∧ c ≠ '+' ∧ c ≠ '#' ∧ c ≠ '&' ∧ c ≠ '=' ∧ c ≠ '?' := by
  refine ⟨?_, ?_, ?_, ?_, ?_, ?_⟩ <;> (intro he; subst he; revert h; decide)

theorem enc_mem_props (u : List Char) (hb : ∀ c ∈ u, c.toNat < 256) :
    ∀ c ∈ encodeURIComponent u, c ≠ '#' ∧ c ≠ '&' ∧ c ≠ '=' ∧ c ≠ '?' := by
  induction u with
  | nil => simp [encodeURIComponent]
  | cons c0 t ih =>
    intro c hc
    simp only [encodeURIComponent] at hc
    rcases List.mem_append.mp hc with hm | hm
    · by_cases hu : isUnresCode c0.toNat = true
      · rw [if_pos hu] at hm
        simp at hm
        subst hm
        obtain ⟨_, _, h3, h4, h5, h6⟩ := unres_ne _ hu
        exact ⟨h3, h4, h5, h6⟩
      · rw [if_neg hu] at hm
        have hb0 : c0.toNat < 256 := hb c0 (by simp)
        have hhi := hexFin16 ⟨c0.toNat / 16, by omega⟩
        have hlo := hexFin16 ⟨c0.toNat % 16, by omega⟩
        simp at hm
        rcases hm with hm | hm | hm <;> subst hm
        · exact ⟨by decide, by decide, by decide, by decide⟩
        · exact ⟨hhi.2.2.1, hhi.2.2.2.1, hhi.2.2.2.2.1, hhi.2.2.2.2.2.1⟩
        · exact ⟨hlo.2.2.1, hlo.2.2.2.1, hlo.2.2.2.2.1, hlo.2.2.2.2.2.1⟩
    · exact ih (fun x hx => hb x (by simp [hx])) c hm

theorem formUrlDecode_cons_other (a : Char) (rest : List Char) (h : a ≠ '%') :
    formUrlDecode (a :: rest) = (if a = '+' then ' ' else a) :: formUrlDecode rest := by
  match rest with
  | [] =>
    by_cases hp : a = '+' <;> simp [formUrlDecode, hp]
  | [b] => simp [formUrlDecode]
  | b :: c :: t => simp [formUrlDecode, h]

theorem formUrlDecode_escape (h1 h2 : Char) (t : List Char)
    (hh1 : isHexDigit h1 = true) (hh2 : isHexDigit h2 = true) :
    formUrlDecode ('%' :: h1 :: h2 :: t) =
      Char.ofNat (16 * hexVal h1 + hexVal h2) :: formUrlDecode t := by
  simp [formUrlDecode, hh1, hh2]

theorem formUrlDecode_encode (u : List Char) (hb : ∀ c ∈ u, c.toNat < 256) :
    formUrlDecode (encodeURIComponent u) = u := by
  induction u with
  | nil => rfl
  | cons c t ih =>
    have hb0 : c.toNat < 256 := hb c (by simp)
    have iht := ih (fun x hx => hb x (by simp [hx]))
    simp only [encodeURIComponent]
    by_cases hu : isUnresCode c.toNat = true
    · rw [if_pos hu]
      obtain ⟨hne1, hne2, _, _, _, _⟩ := unres_ne c hu
      rw [List.cons_append, List.nil_append,
        formUrlDecode_cons_other c _ hne1, if_neg hne2, iht]
    · rw [if_neg hu]
      have hhi := hexFin16 ⟨c.toNat / 16, by omega⟩
      have hlo := hexFin16 ⟨c.toNat % 16, by omega⟩
      simp only [List.cons_append, List.nil_append]
      rw [formUrlDecode_escape _ _ _ hhi.1 hlo.1, hhi.2.1, hlo.2.1]
      rw [Nat.div_add_mod, Char.ofNat_toNat, iht]

theorem percentDecodeStrict_no_pct :
    ∀ (l : List Char), (∀ a ∈ l, a ≠ '%') → percentDecodeStrict l = some l
  | [], _ => rfl
  | [a], h => by
    have ha := h a (by simp)
    simp [percentDecodeStrict, ha]
  | [a, b], h => by
    have ha := h a (by simp)
    have hbne := h b (by simp)
    have recb := percentDecodeStrict_no_pct [b] (by
      intro x hx
      simp at hx
      subst hx
      exact hbne)
    simp [percentDecodeStrict, ha, hbne, recb]
  | a :: b :: c :: t, h => by
    have ha := h a (by simp)
    have rec2 := percentDecodeStrict_no_pct (b :: c :: t)
      (fun x hx => h x (List.mem_cons_of_mem a hx))
    simp [percentDecodeStrict, ha, rec2]

theorem searchParamGet_shape (q k v : List Char)
    (hq : ∀ a ∈ q, a ≠ '#' ∧ a ≠ '?')
    (hk : ∀ a ∈ k, a ≠ '#' ∧ a ≠ '&' ∧ a ≠ '=')
    (hv : ∀ a ∈ v, a ≠ '#' ∧ a ≠ '&')
    (hkdec : formUrlDecode k = k) :
    searchParamGet (q ++ ('?' :: (k ++ ('=' :: v)))) k = some (formUrlDecode v) := by
  unfold searchParamGet
  have htake : (q ++ ('?' :: (k ++ ('=' :: v)))).takeWhile (fun a => a ≠ '#') =
      q ++ ('?' :: (k ++ ('=' :: v))) := by
    refine List.takeWhile_eq_self_iff.mpr ?_
    intro x hx
    rcases List.mem_append.mp hx with hm | hm
    · exact decide_eq_true ((hq x hm).1)
    · rcases List.mem_cons.mp hm with hm2 | hm2
      · subst hm2; decide
      · rcases List.mem_append.mp hm2 with hm3 | hm3
        · exact decide_eq_true ((hk x hm3).1)
        · rcases List.mem_cons.mp hm3 with hm4 | hm4
          · subst hm4; decide
          · exact decide_eq_true ((hv x hm4).1)
  rw [htake]
  rw [afterChar_append_not_mem '?' q _ (fun a ha => (hq a ha).2), afterChar_cons_self]
  dsimp only
  have hsplit : splitOnChar '&' (k ++ ('=' :: v)) = [k ++ ('=' :: v)] := by
    refine splitOnChar_no_sep '&' _ ?_
    intro a ha
    rcases List.mem_append.mp ha with hm | hm
    · exact (hk a hm).2.1
    · rcases List.mem_cons.mp hm with hm2 | hm2
      · subst hm2; decide
      · exact (hv a hm2).2
  rw [hsplit]
  have hempty : (k ++ ('=' :: v)).isEmpty = false := by
    cases k <;> rfl
  have hname : (k ++ ('=' :: v)).takeWhile (fun a => a ≠ '=') = k :=
    takeWhile_middle _ '=' (by decide) k v (fun a ha => decide_eq_true (hk a ha).2.2)
  have hvalue : (k ++ ('=' :: v)).dropWhile (fun a => a ≠ '=') = '=' :: v :=
    dropWhile_middle _ '=' (by decide) k v (fun a ha => decide_eq_true (hk a ha).2.2)
  simp only [List.filterMap_cons, List.filterMap_nil, hempty, Bool.false_eq_true,
    if_false, hname, hvalue, hkdec, eq_self_iff_true, if_true, List.drop_succ_cons,
    List.drop_zero, List.head?_cons]

/-- C1 counterexample: the origin URL https://cdn.example.com/a%20b.mp4 does
not round-trip — convertUrlForLambda percent-decodes a second time after the
query parser has already decoded once, so the proxied form comes back as
https://cdn.example.com/a b.mp4. -/
theorem c1_counterexample :
    convertUrlForLambda (convertUrlForLocal (S ("https://cdn.example.com/a%20b.mp4"))) =
      S ("https://cdn.example.com/a b.mp4") ∧
    S ("https://cdn.example.com/a b.mp4") ≠ S ("https://cdn.example.com/a%20b.mp4") ∧
    convertUrlForLocal (S ("https://cdn.example.com/a%20b.mp4")) =
      S ("/api/video-proxy?url=https%3A%2F%2Fcdn.example.com%2Fa%2520b.mp4") := by
  exact ⟨by decide, by decide, by decide⟩

/-- C1 amended: the proxy/origin conversion round-trips for every origin URL
(byte string) that starts with http, is not already proxied, and contains no
percent sign (for URLs containing percent escapes the second decode corrupts
them); and convertUrlForLocal is the identity on every already-proxied URL. -/
theorem c1_url_round_trip (u p : List Char)
    (hu1 : (S ("http")).isPrefixOf u = true)
    (hu2 : hasSub (S ("/api/video-proxy")) u = false)
    (hu3 : ∀ c ∈ u, c.toNat < 256)
    (hu4 : ∀ c ∈ u, c ≠ '%')
    (hp : hasSub (S ("/api/video-proxy")) p = true) :
    convertUrlForLambda (convertUrlForLocal u) = u ∧ convertUrlForLocal p = p := by
  constructor
  · have hlocal : convertUrlForLocal u = S ("/api/video-proxy?url=") ++ encodeURIComponent u := by
      unfold convertUrlForLocal
      rw [hu1, hu2]
      rfl
    rw [hlocal]
    unfold convertUrlForLambda
    have hc1 : hasSub (S ("/api/video-proxy?url=")) (S ("/api/video-proxy?url=") ++ encodeURIComponent u) = true :=
      hasSub_of_isPrefixOf (isPrefixOf_append_self _ _)
    rw [hc1]
    have hstart : (S ("/")).isPrefixOf (S ("/api/video-proxy?url=") ++ encodeURIComponent u) = true := by
      rw [show S ("/api/video-proxy?url=") = S ("/") ++ S ("api/video-proxy?url=") from rfl,
        List.append_assoc]
      exact isPrefixOf_append_self _ _
    rw [if_pos rfl, if_pos hstart]
    dsimp only
    have hparse : urlParseOk (S ("http://localhost:3000") ++
        (S ("/api/video-proxy?url=") ++ encodeURIComponent u)) = true := by
      unfold urlParseOk
      rw [isPrefixOf_append_of_isPrefixOf _ (by decide :
        (S ("http://")).isPrefixOf (S ("http://localhost:3000")) = true)]
      rfl
    rw [hparse, if_pos rfl]
    have hshape : S ("http://localhost:3000") ++
        (S ("/api/video-proxy?url=") ++ encodeURIComponent u) =
        S ("http://localhost:3000/api/video-proxy") ++
          ('?' :: (S ("url") ++ ('=' :: encodeURIComponent u))) := by
      rw [← List.append_assoc]
      rw [show S ("http://localhost:3000") ++ S ("/api/video-proxy?url=") =
        S ("http://localhost:3000/api/video-proxy") ++ ('?' :: (S ("url") ++ [ '=' ])) from by decide]
      simp [List.append_assoc]
    rw [hshape]
    rw [searchParamGet_shape (S ("http://localhost:3000/api/video-proxy")) (S ("url"))
      (encodeURIComponent u) (by decide) (by decide) (fun a ha =>
        ⟨(enc_mem_props u hu3 a ha).1, (enc_mem_props u hu3 a ha).2.1⟩) (by decide)]
    rw [formUrlDecode_encode u hu3]
    have hne : u.isEmpty = false := by
      rw [show S ("http") = 'h' :: S ("ttp") from rfl] at hu1
      exact isEmpty_false_of_cons_prefix hu1
    dsimp only
    rw [hne]
    simp only [Bool.false_eq_true, if_false]
    rw [percentDecodeStrict_no_pct u hu4]
  · unfold convertUrlForLocal
    rw [hp]
    simp

/-- Witness for C1: Scenario C — the plain CDN URL round-trips through the
proxy form, and an already-proxied URL is left unchanged. -/
theorem c1_witness :
    convertUrlForLambda (convertUrlForLocal (S ("https://cdn.example.com/a.mp4"))) =
      S ("https://cdn.example.com/a.mp4") ∧
    convertUrlForLocal (S ("/api/video-proxy?url=x")) = S ("/api/video-proxy?url=x") := by
  exact c1_url_round_trip (S ("https://cdn.example.com/a.mp4")) (S ("/api/video-proxy?url=x"))
    (by decide) (by decide) (by decide) (by decide) (by decide)

end VideoEditor
